import Mathlib

/-!
Verification development for the traipadvisor-scraper repository.

The Python source is shallowly embedded: JSON documents become the
inductive type `JsonV`, raising code becomes `Except PyErr`, machine
floats become exact rationals, and the stateful city cache and scraper
become explicit state-passing functions.  Each definition is translated
from the function of the same name in the source tree; network and
library calls (geodesic distance, HTTP responses) are passed in as
explicit parameters or data.
-/

namespace TripScraper

/-- Model of the Python exception kinds that the source distinguishes
(`except KeyError` is the only selective handler; every other handler is
a bare `except`).  `err` stands for any further exception kind
(`Exception`, `ValueError` from codecs, attribute errors, ...). -/
inductive PyErr where
  | keyError
  | typeError
  | indexError
  | valueError
  | err
deriving DecidableEq, Repr

/-- JSON values, the payloads exchanged with the provider API.  Numbers
are modelled as exact rationals. -/
inductive JsonV where
  | null
  | bool (b : Bool)
  | num (q : ℚ)
  | str (s : String)
  | arr (items : List JsonV)
  | obj (fields : List (String × JsonV))

/-- Python `value[key]` on a JSON document: `KeyError` when the key is
absent from a dict, `TypeError` when the value is not a dict. -/
def jGetE (v : JsonV) (k : String) : Except PyErr JsonV :=
  match v with
  | .obj fs =>
    match fs.lookup k with
    | some w => .ok w
    | none => .error .keyError
  | _ => .error .typeError

/-- Python `value[i]` on a JSON document: `IndexError` when the index is
out of range of a list, `TypeError` when the value is not a list. -/
def jIdxE (v : JsonV) (i : ℕ) : Except PyErr JsonV :=
  match v with
  | .arr xs =>
    match xs[i]? with
    | some w => .ok w
    | none => .error .indexError
  | _ => .error .typeError

/-- Python `value.get(key, default)`: total on dicts, an attribute
error (modelled by `PyErr.err`) on any non-dict value. -/
def dictGetD (v : JsonV) (k : String) (d : JsonV) : Except PyErr JsonV :=
  match v with
  | .obj fs => .ok ((fs.lookup k).getD d)
  | _ => .error .err

/-- Python `for item in value`: iteration requires a list in the shapes
the scraper touches; anything else is modelled as a `TypeError`. -/
def jArrE (v : JsonV) : Except PyErr (List JsonV) :=
  match v with
  | .arr xs => .ok xs
  | _ => .error .typeError

/-- Python `value == "literal"` where `value` came out of a JSON
document: true exactly when `value` is the given string. -/
def jStrEq (v : JsonV) (s : String) : Bool :=
  match v with
  | .str t => t == s
  | _ => false

/-! ## config.py constants -/

/-- `MIN_DISTANCE = 50` (km), from `config.py`. -/
def MIN_DISTANCE : ℚ := 50

/-- `DEFAULT_DURATION = 45` (minutes), from `config.py`. -/
def DEFAULT_DURATION : ℤ := 45

/-- `DEFAULT_RATING = 2.5`, from `config.py`. -/
def DEFAULT_RATING : ℚ := 5 / 2

/-- `DEFAULT_REVIEW_COUNT = 0`, from `config.py`. -/
def DEFAULT_REVIEW_COUNT : ℚ := 0

/-! ## File-path model for the city cache (config.py / city_cache.py)

Paths are modelled as lists of components.  A relative path opened by
`open(..., "w")` resolves against the process working directory. -/

/-- `CACHE_FILENAME = "cache/city_cache.json"`, from `config.py`, as
path components. -/
def CACHE_FILENAME : List String := ["cache", "city_cache.json"]

/-- `os.path.join` on component lists. -/
def joinPath (dir rel : List String) : List String := dir ++ rel

/-- `CACHE_FILEPATH = os.path.join(BASE_FILEPATH, CACHE_FILENAME)` from
`city_cache.py`; `base` stands for `BASE_FILEPATH` (the directory of
`config.py`). -/
def CACHE_FILEPATH (base : List String) : List String :=
  joinPath base CACHE_FILENAME

/-- The absolute path that `CityCache.__init__` reads the checkpoint
from: `open(CACHE_FILEPATH, "r")`. -/
def cityCacheLoadPath (base : List String) : List String :=
  CACHE_FILEPATH base

/-- The absolute path that `CityCache.update_cache` writes to:
`open(CACHE_FILENAME, "w")` — the bare relative name, resolved against
the process working directory `cwd`. -/
def cityCacheWritePath (cwd : List String) : List String :=
  joinPath cwd CACHE_FILENAME

/-! ## CityCache (city_cache.py) -/

/-- One entry of the checkpoint document (a `CityTask` in the spec). -/
structure CityTask where
  city : String
  state : Option String
  country : String
  lat : ℚ
  lng : ℚ
  nspace : String
  processed : Bool
  success : Bool
deriving DecidableEq, Repr

/-- The loop body of `CityCache.__iter__`, with the consumer driving
every yielded harvest to a normal return.  `limit` is
`cities_per_job`, `n` the running `num_processed` counter.  For each
task with `processed = false` the generator sets
`processed := true, success := false` (persisting), yields it, then on
resumption sets `success := true` (persisting again), increments the
counter and stops once the counter equals `limit`.  Returns the final
cache together with the list of yielded tasks (in their state at yield
time). -/
def cityIterGo (limit : ℕ) : List CityTask → ℕ → List CityTask × List CityTask
  | [], _ => ([], [])
  | t :: rest, n =>
    if t.processed then
      let p := cityIterGo limit rest n
      (t :: p.1, p.2)
    else
      let tYield : CityTask := { t with processed := true, success := false }
      let tDone : CityTask := { tYield with success := true }
      if n + 1 = limit then (tDone :: rest, [tYield])
      else
        let p := cityIterGo limit rest (n + 1)
        (tDone :: p.1, tYield :: p.2)

/-- One full iteration pass over a `CityCache` holding `cache`, with
per-run limit `cities_per_job = limit`; `num_processed` starts at 0. -/
def cityCacheIter (cache : List CityTask) (limit : ℕ) :
    List CityTask × List CityTask :=
  cityIterGo limit cache 0

/-- Number of tasks still carrying `processed = false`. -/
def countUnprocessed (cache : List CityTask) : ℕ :=
  (cache.filter (fun t => !t.processed)).length

/-- `CityCache.cache_complete`: true iff every task has
`processed = true`. -/
def cache_complete (cache : List CityTask) : Bool :=
  cache.all (fun t => t.processed)

/-! ## Retry combinator (utils.py, BaseTimeoutDecoratorClass) -/

/-- The loop of `BaseTimeoutDecoratorClass.__call__`:
`for i in range(retries + 1)`, invoke the operation; on an error for
which `matches` holds, sleep and — once `i == retries` — re-raise; a
non-matching error propagates immediately.  The operation is modelled
as `f : ℕ → Except E A` giving the outcome of its `i`-th invocation.
`left` counts the iterations still to go after the current one
(`left = retries - i`).  Returns the final outcome together with the
number of invocations made and the number of sleeps performed. -/
def retryGo (f : ℕ → Except E A) (isMatch : E → Bool) (i : ℕ) :
    ℕ → Except E A × ℕ × ℕ
  | 0 =>
    match f i with
    | .ok a => (.ok a, 1, 0)
    | .error e =>
      if isMatch e then (.error e, 1, 1) else (.error e, 1, 0)
  | left + 1 =>
    match f i with
    | .ok a => (.ok a, 1, 0)
    | .error e =>
      if isMatch e then
        let p := retryGo f isMatch (i + 1) left
        (p.1, p.2.1 + 1, p.2.2 + 1)
      else (.error e, 1, 0)

/-- Calling an operation wrapped by `BaseTimeoutDecoratorClass(retries,
wait, error)`: the loop runs over `i = 0, ..., retries`, so at most
`retries + 1` invocations happen. -/
def retryCall (f : ℕ → Except E A) (isMatch : E → Bool) (retries : ℕ) :
    Except E A × ℕ × ℕ :=
  retryGo f isMatch 0 retries

/-- A retry configuration `(retries, wait)` as passed to
`BaseTimeoutDecoratorClass`-derived decorators. -/
structure RetryConfig where
  retries : ℕ
  wait : ℚ
deriving DecidableEq, Repr

/-- `@RetryOnGcpTimeoutError(retries=20, wait=0.2)` on
`GCP_Client.check_file_exists` (gcp_client.py). -/
def gcpCheckFileRetry : RetryConfig := ⟨20, 1 / 5⟩

/-- `@RetryOnGcpTimeoutError(retries=20, wait=0.2)` on
`GCP_Client.load_file` (gcp_client.py). -/
def gcpLoadFileRetry : RetryConfig := ⟨20, 1 / 5⟩

/-- `@RetryOnGcpTimeoutError(retries=100, wait=0.2)` on
`GCP_Client.upload_file` (gcp_client.py). -/
def gcpUploadFileRetry : RetryConfig := ⟨100, 1 / 5⟩

/-- `@RetryOnOpenAI_ApiError(retries=10, wait=1)` on `embedding_api`
(openai_embedding.py). -/
def openaiEmbeddingRetry : RetryConfig := ⟨10, 1⟩

/-- `@retry(stop=stop_after_attempt(5), wait=wait_fixed(2))` on
`TripAdvisorScraper.get_async_request` and `get_sync_request`
(scraper.py) — tenacity counts total attempts, not retries. -/
def scraperRequestAttempts : ℕ := 5

/-- The fixed wait (seconds) of the tenacity decorator on the scraper
request methods. -/
def scraperRequestWait : ℚ := 2

/-! ## batch_data (utils.py) -/

/-- Worker for `batch_data`: produces the slices
`data[0:n], data[n:2*n], ...` of the Python generator.  `fuel` bounds
the recursion; `batch_data` supplies `data.length`, which suffices for
every `n ≥ 1` (for `n = 0` the Python `range` call raises). -/
def batchChunks (n : ℕ) : ℕ → List α → List (List α)
  | 0, _ => []
  | _, [] => []
  | fuel + 1, x :: xs => (x :: xs).take n :: batchChunks n fuel ((x :: xs).drop n)

/-- `batch_data(data, n)`: split a list into consecutive slices of
size `n` (the final slice may be shorter). -/
def batch_data (data : List α) (n : ℕ) : List (List α) :=
  batchChunks n data.length data

/-! ## String helpers (Python `str.lower`, substring test, `re.findall`) -/

/-- Python `text.lower()` (restricted to the per-character lowering the
scraper's ASCII unit words need). -/
def strLower (s : String) : String :=
  String.mk (s.data.map Char.toLower)

/-- Does `pat` occur at the head of `text`? -/
def charsLeadMatch : List Char → List Char → Bool
  | [], _ => true
  | _ :: _, [] => false
  | p :: ps, t :: ts => p == t && charsLeadMatch ps ts

/-- Does `pat` occur anywhere in `text`?  (Python `pat in text`.) -/
def charsContain (pat : List Char) : List Char → Bool
  | [] => charsLeadMatch pat []
  | c :: ts => charsLeadMatch pat (c :: ts) || charsContain pat ts

/-- Python `pat in s` for strings. -/
def hasSubstr (s pat : String) : Bool :=
  charsContain pat.data s.data

/-- Python `text.replace("\n", "")`: drop every newline character. -/
def removeNewlines (s : String) : String :=
  String.mk (s.data.filter (fun c => !(c == '\n')))

/-- Splitting worker for Python `text.split(sep)` with a one-character
separator; `acc` is the reversed segment in progress. -/
def splitOnCharGo (c : Char) : List Char → List Char → List (List Char)
  | [], acc => [acc.reverse]
  | x :: xs, acc =>
    if x == c then acc.reverse :: splitOnCharGo c xs []
    else splitOnCharGo c xs (x :: acc)

/-- Python `text.split(sep)` for a one-character separator. -/
def pySplitOnChar (s : String) (c : Char) : List String :=
  (splitOnCharGo c s.data []).map String.mk

/-- Python `text.strip()`: drop leading and trailing whitespace. -/
def pyStrip (s : String) : String :=
  String.mk
    (((s.data.dropWhile Char.isWhitespace).reverse.dropWhile
      Char.isWhitespace).reverse)

/-- Worker for `re.findall(r"\d+", text)`: scans the characters,
accumulating the maximal runs of decimal digits as numbers.  `acc` is
the run in progress. -/
def digitRunsGo : List Char → Option ℕ → List ℕ
  | [], none => []
  | [], some n => [n]
  | c :: cs, acc =>
    if c.isDigit then
      let d := c.toNat - 48
      match acc with
      | none => digitRunsGo cs (some d)
      | some n => digitRunsGo cs (some (n * 10 + d))
    else
      match acc with
      | none => digitRunsGo cs none
      | some n => n :: digitRunsGo cs none

/-- `re.findall(r"\d+", text)` followed by `int(...)` on each match:
all embedded maximal digit runs of `text`, as numbers, in order. -/
def findallDigits (text : String) : List ℕ :=
  digitRunsGo text.data none

/-- `np.mean` over the extracted digits, as an exact rational (the
source computes in float64; the inputs the claims exercise are exact
either way).  The mean of the empty list is NaN in numpy; callers
handle that case separately. -/
def meanQ (l : List ℕ) : ℚ :=
  (l.map (fun n => (n : ℚ))).sum / (l.length : ℚ)

/-- Python's built-in `round` on an exact rational: round half to
even. -/
def pyRound (q : ℚ) : ℤ :=
  let f := ⌊q⌋
  let r := q - (f : ℚ)
  if r < 1 / 2 then f
  else if 1 / 2 < r then f + 1
  else if f % 2 = 0 then f else f + 1

/-! ## Base64 / UTF-8 model (Python `base64.b64decode` and
`bytes.decode("utf-8")`, used by `decode_base64` in response.py). -/

/-- Index of a character in the standard base64 alphabet. -/
def b64Index (c : Char) : Option ℕ :=
  let n := c.toNat
  if 65 ≤ n ∧ n ≤ 90 then some (n - 65)
  else if 97 ≤ n ∧ n ≤ 122 then some (n - 71)
  else if 48 ≤ n ∧ n ≤ 57 then some (n + 4)
  else if c == '+' then some 62
  else if c == '/' then some 63
  else none

/-- Decode base64 quadruples into bytes; the final quadruple may carry
one or two padding characters.  A malformed quadruple is a decode
error. -/
def b64Groups : List Char → Except PyErr (List ℕ)
  | [] => .ok []
  | a :: b :: c :: d :: rest =>
    match b64Index a, b64Index b with
    | some va, some vb =>
      if rest.isEmpty then
        if c == '=' && d == '=' then .ok [va * 4 + vb / 16]
        else
          match b64Index c with
          | some vc =>
            if d == '=' then .ok [va * 4 + vb / 16, (vb % 16) * 16 + vc / 4]
            else
              match b64Index d with
              | some vd =>
                .ok [va * 4 + vb / 16, (vb % 16) * 16 + vc / 4,
                  (vc % 4) * 64 + vd]
              | none => .error .err
          | none => .error .err
      else
        match b64Index c, b64Index d with
        | some vc, some vd => do
          let tail ← b64Groups rest
          .ok ([va * 4 + vb / 16, (vb % 16) * 16 + vc / 4,
            (vc % 4) * 64 + vd] ++ tail)
        | _, _ => .error .err
    | _, _ => .error .err
  | _ => .error .err

/-- `base64.b64decode` on a string argument: the input must be ASCII;
characters outside the alphabet and padding are discarded; what remains
must consist of well-formed quadruples. -/
def b64decode (s : String) : Except PyErr (List ℕ) :=
  if s.data.any (fun c => 128 ≤ c.toNat) then .error .valueError
  else
    let kept := s.data.filter (fun c => (b64Index c).isSome || c == '=')
    if kept.length % 4 = 0 then b64Groups kept else .error .err

/-- `bytes.decode("utf-8")`: strict UTF-8 decoding of a byte list,
`none` on any malformed sequence. -/
def utf8Decode : List ℕ → Option (List Char)
  | [] => some []
  | b :: rest =>
    if b < 128 then (utf8Decode rest).map (fun cs => Char.ofNat b :: cs)
    else if b < 194 then none
    else if b ≤ 223 then
      match rest with
      | b2 :: rest2 =>
        if 128 ≤ b2 ∧ b2 ≤ 191 then
          (utf8Decode rest2).map
            (fun cs => Char.ofNat ((b - 192) * 64 + (b2 - 128)) :: cs)
        else none
      | [] => none
    else if b ≤ 239 then
      match rest with
      | b2 :: b3 :: rest2 =>
        if (128 ≤ b2 ∧ b2 ≤ 191) ∧ (128 ≤ b3 ∧ b3 ≤ 191) ∧
            (b = 224 → 160 ≤ b2) ∧ (b = 237 → b2 ≤ 159) then
          (utf8Decode rest2).map
            (fun cs =>
              Char.ofNat ((b - 224) * 4096 + (b2 - 128) * 64 + (b3 - 128)) :: cs)
        else none
      | _ => none
    else if b ≤ 244 then
      match rest with
      | b2 :: b3 :: b4 :: rest2 =>
        if (128 ≤ b2 ∧ b2 ≤ 191) ∧ (128 ≤ b3 ∧ b3 ≤ 191) ∧
            (128 ≤ b4 ∧ b4 ≤ 191) ∧ (b = 240 → 144 ≤ b2) ∧
            (b = 244 → b2 ≤ 143) then
          (utf8Decode rest2).map
            (fun cs =>
              Char.ofNat ((b - 240) * 262144 + (b2 - 128) * 4096 +
                (b3 - 128) * 64 + (b4 - 128)) :: cs)
        else none
      | _ => none
    else none

/-- `decode_base64` (response.py): base64-decode, UTF-8 decode, then
strip the first and the last four characters (`[4:-4]`; on at most
eight characters Python yields the empty string). -/
def decode_base64 (base64_string : String) : Except PyErr String := do
  let bytes ← b64decode base64_string
  match utf8Decode bytes with
  | none => .error .err
  | some cs => .ok (String.mk ((cs.drop 4).take (cs.length - 8)))

/-- `extract_activity_duration` (response.py): collect all embedded
digit runs, branch on the unit word in the lowered text, average and
round to the nearest five minutes (times 60 beforehand for hours).
With no digits `np.mean` is NaN and `round` raises; with no recognized
unit word the function raises `Exception`. -/
def extract_activity_duration (text : String) : Except PyErr ℤ :=
  let digits := findallDigits text
  if hasSubstr (strLower text) "hour" then
    if digits.isEmpty then .error .valueError
    else .ok (5 * pyRound (60 * meanQ digits / 5))
  else if hasSubstr (strLower text) "minute" || hasSubstr (strLower text) "min" then
    if digits.isEmpty then .error .valueError
    else .ok (5 * pyRound (meanQ digits / 5))
  else .error .err

/-! ## Numeric coercions (Python `float(...)` / `int(...)` applied to
values taken from parsed JSON). -/

/-- Split the leading decimal digits off a character list. -/
def takeDigits (cs : List Char) : List Char × List Char :=
  match cs with
  | [] => ([], [])
  | c :: rest =>
    if c.isDigit then
      let p := takeDigits rest
      (c :: p.1, p.2)
    else ([], cs)

/-- Numeric value of a digit run. -/
def natOfDigits (cs : List Char) : ℕ :=
  cs.foldl (fun acc c => acc * 10 + (c.toNat - 48)) 0

/-- Python `float(string)` for plain decimal literals (optional sign,
integer part, optional fraction); other strings raise `ValueError`.
Exponent and infinity forms never occur in the scraped fields. -/
def parseDecimal (s : String) : Option ℚ :=
  let cs := (pyStrip s).data
  let signed : ℚ × List Char :=
    match cs with
    | '-' :: r => (-1, r)
    | '+' :: r => (1, r)
    | _ => (1, cs)
  let ip := takeDigits signed.2
  match ip.2 with
  | [] =>
    if ip.1.isEmpty then none
    else some (signed.1 * (natOfDigits ip.1 : ℚ))
  | '.' :: r3 =>
    let fp := takeDigits r3
    if fp.2.isEmpty then
      if ip.1.isEmpty && fp.1.isEmpty then none
      else
        some (signed.1 *
          ((natOfDigits ip.1 : ℚ) + (natOfDigits fp.1 : ℚ) / (10 : ℚ) ^ fp.1.length))
    else none
  | _ => none

/-- Python `float(value)` on a JSON value. -/
def pyFloat (v : JsonV) : Except PyErr ℚ :=
  match v with
  | .num q => .ok q
  | .bool b => .ok (if b then 1 else 0)
  | .str s =>
    match parseDecimal s with
    | some q => .ok q
    | none => .error .valueError
  | _ => .error .typeError

/-- Python `int(string)` for plain integer literals. -/
def parseIntStr (s : String) : Option ℤ :=
  let cs := (pyStrip s).data
  let signed : ℤ × List Char :=
    match cs with
    | '-' :: r => (-1, r)
    | '+' :: r => (1, r)
    | _ => (1, cs)
  let ip := takeDigits signed.2
  if ip.2.isEmpty && !ip.1.isEmpty then some (signed.1 * (natOfDigits ip.1 : ℤ))
  else none

/-- Python `int(value)` on a JSON value (floats truncate toward
zero). -/
def pyInt (v : JsonV) : Except PyErr ℤ :=
  match v with
  | .num q => .ok (if q < 0 then -⌊-q⌋ else ⌊q⌋)
  | .bool b => .ok (if b then 1 else 0)
  | .str s =>
    match parseIntStr s with
    | some n => .ok n
    | none => .error .valueError
  | _ => .error .typeError

/-! ## JSON serialization (Python `json.dumps`, used by
`parse_business_hours`). -/

/-- Escape one character for a JSON string literal. -/
def jsonEscChar (c : Char) : List Char :=
  if c == '"' then ['\\', '"']
  else if c == '\\' then ['\\', '\\']
  else if c == '\n' then ['\\', 'n']
  else [c]

/-- Escape a string for a JSON string literal. -/
def jsonEscape (s : String) : String :=
  String.mk (s.data.foldr (fun c acc => jsonEscChar c ++ acc) [])

mutual

/-- `json.dumps` with its default separators. -/
def jsonDump : JsonV → String
  | .null => "null"
  | .bool true => "true"
  | .bool false => "false"
  | .num q => toString q
  | .str s => "\"" ++ jsonEscape s ++ "\""
  | .arr xs => "[" ++ jsonDumpList xs ++ "]"
  | .obj fs => "\x7b" ++ jsonDumpFields fs ++ "\x7d"

/-- Comma-joined serialization of array elements. -/
def jsonDumpList : List JsonV → String
  | [] => ""
  | [x] => jsonDump x
  | x :: y :: xs => jsonDump x ++ ", " ++ jsonDumpList (y :: xs)

/-- Comma-joined serialization of object fields. -/
def jsonDumpFields : List (String × JsonV) → String
  | [] => ""
  | [(k, v)] => "\"" ++ jsonEscape k ++ "\": " ++ jsonDump v
  | (k, v) :: f :: fs =>
    "\"" ++ jsonEscape k ++ "\": " ++ jsonDump v ++ ", " ++ jsonDumpFields (f :: fs)

end

/-! ## Response parsing (scraper/utils/response.py) -/

/-- The path `data[0]["data"]["Result"][0]` shared by every response
parser. -/
def attrResult0 (data : JsonV) : Except PyErr JsonV := do
  let d0 ← jIdxE data 0
  let dd ← jGetE d0 "data"
  let res ← jGetE dd "Result"
  jIdxE res 0

/-- One discovered attraction reference: the dict
`\x7b"id": ..., "name": ...\x7d` built by `parse_attr_ids_response`. -/
structure AttrRef where
  id : JsonV
  name : JsonV

/-- Loop of `parse_attr_ids_response`: collect id and title from every
single-flex-card section (key errors on the fixed paths propagate — the
loop has no handler). -/
def attrIdsLoop : List JsonV → Except PyErr (List AttrRef)
  | [] => .ok []
  | item :: rest => do
    let tn ← jGetE item "__typename"
    if jStrEq tn "WebPresentation_SingleFlexCardSection" then
      let sc ← jGetE item "singleFlexCardContent"
      let sid ← jGetE sc "saveId"
      let idv ← jGetE sid "id"
      let ct ← jGetE sc "cardTitle"
      let nm ← jGetE ct "text"
      let tail ← attrIdsLoop rest
      .ok (⟨idv, nm⟩ :: tail)
    else attrIdsLoop rest

/-- `parse_attr_ids_response` (response.py). -/
def parse_attr_ids_response (data : JsonV) : Except PyErr (List AttrRef) := do
  let r0 ← attrResult0 data
  let sections ← jGetE r0 "sections"
  let items ← jArrE sections
  attrIdsLoop items

/-- The guarded body of `parse_business_description`'s loop:
`item["about"]["primary"]["about"]`, base64-decoded with the newline
characters removed. -/
def descTry (item : JsonV) : Except PyErr String := do
  let ab ← jGetE item "about"
  let pr ← jGetE ab "primary"
  let d ← jGetE pr "about"
  match d with
  | .str s => do
    let dec ← decode_base64 s
    .ok (removeNewlines dec)
  | _ => .error .typeError

/-- Loop of `parse_business_description`: the `__typename` access is
outside the `try`, so its failure propagates; any failure of the
guarded body is swallowed (`except: pass`) and the scan continues; a
scan that finds nothing raises `Exception`. -/
def descLoop : List JsonV → Except PyErr String
  | [] => .error .err
  | item :: rest => do
    let tn ← jGetE item "__typename"
    if jStrEq tn "WebPresentation_AttractionAboutSectionGroup" then
      match descTry item with
      | .ok s => .ok s
      | .error _ => descLoop rest
    else descLoop rest

/-- `parse_business_description` (response.py): hard failure — the
exception reaches the caller — when no section decodes. -/
def parse_business_description (data : JsonV) : Except PyErr String := do
  let r0 ← attrResult0 data
  let groups ← jGetE r0 "detailSectionGroups"
  let items ← jArrE groups
  descLoop items

/-- The guarded condition and extraction of `parse_activity_duration`'s
loop; everything here sits inside `try`, so any failure is reported to
the loop, which swallows it. -/
def durTry (item : JsonV) : Except PyErr (Option String) := do
  let tn ← jGetE item "__typename"
  if jStrEq tn "WebPresentation_AboutContentWeb" then do
    let idf ← jGetE item "identifier"
    if jStrEq idf "DURATION" then do
      let it ← jGetE item "item"
      let tx ← jGetE it "text"
      let tx2 ← jGetE tx "text"
      match tx2 with
      | .str s => .ok (some s)
      | _ => .error .typeError
    else .ok none
  else .ok none

/-- Loop of `parse_activity_duration`: scan for the DURATION content
entry; any exception of the guarded body — including the `Exception`
raised by `extract_activity_duration` on unit-less text — is swallowed
and the scan continues; when the scan ends, the default duration is
returned. -/
def durLoop : List JsonV → Except PyErr ℤ
  | [] => .ok DEFAULT_DURATION
  | item :: rest =>
    match durTry item with
    | .ok (some s) =>
      match extract_activity_duration s with
      | .ok n => .ok n
      | .error _ => durLoop rest
    | .ok none => durLoop rest
    | .error _ => durLoop rest

/-- `parse_activity_duration` (response.py): the fixed path down to the
about-content list is unguarded and its failures propagate. -/
def parse_activity_duration (data : JsonV) : Except PyErr ℤ := do
  let r0 ← attrResult0 data
  let groups ← jGetE r0 "detailSectionGroups"
  let g1 ← jIdxE groups 1
  let ab ← jGetE g1 "about"
  let pr ← jGetE ab "primary"
  let content ← jGetE pr "content"
  let items ← jArrE content
  durLoop items

/-- Guarded body of `parse_business_tags`' loop. -/
def tagsTry (item : JsonV) : Except PyErr String := do
  let tg ← jGetE item "tags"
  let tx ← jGetE tg "text"
  match tx with
  | .str s => .ok s
  | _ => .error .typeError

/-- Loop of `parse_business_tags`: first section with a splittable
`tags.text` wins; the bullet-separated segments are trimmed; an empty
list is the fallback. -/
def tagsLoop : List JsonV → List String
  | [] => []
  | item :: rest =>
    match tagsTry item with
    | .ok s => (pySplitOnChar s '•').map pyStrip
    | .error _ => tagsLoop rest

/-- `parse_business_tags` (response.py): the fixed path down to the
detail sections is unguarded and its failures propagate. -/
def parse_business_tags (data : JsonV) : Except PyErr (List String) := do
  let r0 ← attrResult0 data
  let groups ← jGetE r0 "detailSectionGroups"
  let g0 ← jIdxE groups 0
  let ds ← jGetE g0 "detailSections"
  let items ← jArrE ds
  .ok (tagsLoop items)

/-- Inner loop of `parse_business_website` over `contactLinks`:
the first WEBSITE-typed contact link, base64-decoded. -/
def linksLoop : List JsonV → Except PyErr (Option String)
  | [] => .ok none
  | link :: rest => do
    let tn ← jGetE link "__typename"
    if jStrEq tn "WebPresentation_ContactLink" then do
      let lt ← jGetE link "linkType"
      if jStrEq lt "WEBSITE" then do
        let lk ← jGetE link "link"
        let ext ← jGetE lk "externalUrl"
        match ext with
        | .str s => do
          let w ← decode_base64 s
          .ok (some w)
        | _ => .error .typeError
      else linksLoop rest
    else linksLoop rest

/-- Guarded body of `parse_business_website`'s outer loop. -/
def websiteTry (item : JsonV) : Except PyErr (Option String) := do
  let cl ← jGetE item "contactLinks"
  let links ← jArrE cl
  linksLoop links

/-- Outer loop of `parse_business_website`: the `item.get` call is
outside the `try` (its failure on a non-dict propagates); failures of
the guarded body are swallowed; the empty string is the fallback. -/
def websiteLoop : List JsonV → Except PyErr String
  | [] => .ok ""
  | item :: rest => do
    let tn ← dictGetD item "__typename" (.str "")
    if jStrEq tn "WebPresentation_PoiOverviewWeb" then
      match websiteTry item with
      | .ok (some w) => .ok w
      | .ok none => websiteLoop rest
      | .error _ => websiteLoop rest
    else websiteLoop rest

/-- `parse_business_website` (response.py). -/
def parse_business_website (data : JsonV) : Except PyErr String := do
  let r0 ← attrResult0 data
  let groups ← jGetE r0 "detailSectionGroups"
  let g0 ← jIdxE groups 0
  let ds ← jGetE g0 "detailSections"
  let items ← jArrE ds
  websiteLoop items

/-- Python dict insertion with string keys: re-assignment keeps the
original position, a new key appends. -/
def dictInsert (fs : List (String × JsonV)) (k : String) (v : JsonV) :
    List (String × JsonV) :=
  if (fs.lookup k).isSome then
    fs.map (fun p => if p.1 = k then (k, v) else p)
  else fs ++ [(k, v)]

/-- Inner loop of `parse_business_hours` over `fullSchedule`: build the
day-text → intervals mapping (the scraped day text is a string). -/
def hoursGo (acc : List (String × JsonV)) :
    List JsonV → Except PyErr (List (String × JsonV))
  | [] => .ok acc
  | sec :: rest => do
    let day ← jGetE sec "day"
    let dayT ← jGetE day "text"
    let ivs ← jGetE sec "intervals"
    match dayT with
    | .str s => hoursGo (dictInsert acc s ivs) rest
    | _ => .error .typeError

/-- Guarded body of `parse_business_hours`' outer loop: build the
mapping and serialize it with `json.dumps`. -/
def hoursTry (item : JsonV) : Except PyErr String := do
  let ph ← jGetE item "poiHours"
  let fs ← jGetE ph "fullSchedule"
  let sections ← jArrE fs
  let entries ← hoursGo [] sections
  .ok (jsonDump (.obj entries))

/-- Outer loop of `parse_business_hours`: the `item.get` call is
outside the `try`; failures of the guarded body are swallowed
(`except: continue`); the empty string is the fallback. -/
def hoursLoop : List JsonV → Except PyErr String
  | [] => .ok ""
  | item :: rest => do
    let tn ← dictGetD item "__typename" (.str "")
    if jStrEq tn "WebPresentation_PoiHoursWeb" then
      match hoursTry item with
      | .ok s => .ok s
      | .error _ => hoursLoop rest
    else hoursLoop rest

/-- `parse_business_hours` (response.py). -/
def parse_business_hours (data : JsonV) : Except PyErr String := do
  let r0 ← attrResult0 data
  let groups ← jGetE r0 "detailSectionGroups"
  let g0 ← jIdxE groups 0
  let ds ← jGetE g0 "detailSections"
  let items ← jArrE ds
  hoursLoop items

/-! ## TripAdvisorScraper (scraper/scraper.py) -/

/-- The per-city fields of a `TripAdvisorScraper` instance set by
`__init__` from the city task. -/
structure ScraperInfo where
  city : String
  state : String
  country : String
  lat : ℚ
  lng : ℚ

/-- Is a candidate of the autocomplete response a location item?
(`item["__typename"] == "Typeahead_LocationItem"`.) -/
def isLocationItem (c : JsonV) : Bool :=
  match jGetE c "__typename" with
  | .ok v => jStrEq v "Typeahead_LocationItem"
  | .error _ => false

/-- The coordinate reads of `get_city_id`'s `try` block:
`item["details"]["latitude"]` and `item["details"]["longitude"]`. -/
def candCoordsE (c : JsonV) : Except PyErr (JsonV × JsonV) := do
  let det ← jGetE c "details"
  let la ← jGetE det "latitude"
  let lo ← jGetE det "longitude"
  .ok (la, lo)

/-- Loop of `get_city_id` over the autocomplete results.  `dist` stands
for `compute_distance` (geopy's geodesic distance, treated as an oracle
on exact coordinates).  The `__typename` access is outside the `try`;
only `KeyError` is caught inside it, so a key error on the coordinate
fields or on `locationId` skips the candidate while any other error
propagates (non-numeric coordinates make `compute_distance` itself
raise, modelled by `PyErr.err`); a candidate within `MIN_DISTANCE`
returns its `locationId`; an exhausted scan logs a warning and returns
`None`. -/
def cityLoop (dist : ℚ → ℚ → ℚ → ℚ → ℚ) (lat lng : ℚ) :
    List JsonV → Except PyErr (Option JsonV)
  | [] => .ok none
  | item :: rest => do
    let tn ← jGetE item "__typename"
    if jStrEq tn "Typeahead_LocationItem" then
      match candCoordsE item with
      | .error .keyError => cityLoop dist lat lng rest
      | .error e => .error e
      | .ok (.num la, .num lo) =>
        if dist lat lng la lo < MIN_DISTANCE then
          match jGetE item "locationId" with
          | .ok v => .ok (some v)
          | .error .keyError => cityLoop dist lat lng rest
          | .error e => .error e
        else cityLoop dist lat lng rest
      | .ok _ => .error .err
    else cityLoop dist lat lng rest

/-- `get_city_id` (scraper.py) applied to the autocomplete `response`
for the city's text query. -/
def get_city_id (dist : ℚ → ℚ → ℚ → ℚ → ℚ) (st : ScraperInfo)
    (response : JsonV) : Except PyErr (Option JsonV) := do
  let r0 ← jIdxE response 0
  let dd ← jGetE r0 "data"
  let ta ← jGetE dd "Typeahead_autocomplete"
  let rs ← jGetE ta "results"
  let items ← jArrE rs
  cityLoop dist st.lat st.lng items

/-- Loop of `get_max_attr` over the reversed sections list: the first
pagination-links section returns `item.get("totalResults", 30)`; an
exhausted scan falls off the function and returns `None`. -/
def maxAttrLoop : List JsonV → Except PyErr (Option JsonV)
  | [] => .ok none
  | item :: rest => do
    let tn ← jGetE item "__typename"
    if jStrEq tn "WebPresentation_PaginationLinksList" then do
      let v ← dictGetD item "totalResults" (.num 30)
      .ok (some v)
    else maxAttrLoop rest

/-- `get_max_attr` (scraper.py) applied to the page-0 listing
`response` (the early `return` for an unresolved city id is upstream of
this scan). -/
def get_max_attr (response : JsonV) : Except PyErr (Option JsonV) := do
  let r0 ← attrResult0 response
  let sections ← jGetE r0 "sections"
  let items ← jArrE sections
  maxAttrLoop items.reverse

/-- `extract_lat_lng` (scraper.py): fixed path into the static-map
section, falling back to the city's own coordinates on any failure. -/
def extract_lat_lng (st : ScraperInfo) (data : JsonV) : JsonV × JsonV :=
  match (do
    let r0 ← attrResult0 data
    let groups ← jGetE r0 "detailSectionGroups"
    let g3 ← jIdxE groups 3
    let sm ← jGetE g3 "staticMap"
    let ctr ← jGetE sm "center"
    let la ← jGetE ctr "latitude"
    let lo ← jGetE ctr "longitude"
    Except.ok (la, lo) : Except PyErr (JsonV × JsonV)) with
  | .ok p => p
  | .error _ => (.num st.lat, .num st.lng)

/-- The structured-metadata reads of `parse_attr_details_response`, in
the evaluation order of its dict literal: type, street address, postal
code, rating, review count, image URL (each a `.get` chain with its
default). -/
def jsonLdReads (general : JsonV) :
    Except PyErr (JsonV × JsonV × JsonV × JsonV × JsonV × JsonV) := do
  let typeV ← dictGetD general "@type" (.str "")
  let addrObj ← dictGetD general "address" (.obj [])
  let addressV ← dictGetD addrObj "streetAddress" (.str "")
  let zipObj ← dictGetD general "address" (.obj [])
  let zipV ← dictGetD zipObj "postalCode" (.str "")
  let ratObj ← dictGetD general "aggregateRating" (.obj [])
  let ratingV ← dictGetD ratObj "ratingValue" (.num DEFAULT_RATING)
  let rcObj ← dictGetD general "aggregateRating" (.obj [])
  let reviewV ← dictGetD rcObj "reviewCount" (.num DEFAULT_REVIEW_COUNT)
  let imageV ← dictGetD general "image" (.str "")
  .ok (typeV, addressV, zipV, ratingV, reviewV, imageV)

/-- The canonical record one detail payload parses to (the dict built
by `parse_attr_details_response`; `type` is a Lean keyword, hence
`type_`). -/
structure AttrDetails where
  type_ : JsonV
  address : JsonV
  city : String
  state : String
  country : String
  zip_code : JsonV
  rating : JsonV
  review_count : JsonV
  image_url : JsonV
  latitude : JsonV
  longitude : JsonV
  description : String
  activity_duration : ℤ
  website : String
  tags : List String
  hours : String

/-- `parse_attr_details_response` (scraper.py): `json.loads` of the
embedded `jsonLd` document is modelled by the payload carrying the
parsed object under the `jsonLd` key; rating and review count are
coerced (`float` / `int`) unless `None`; the description parser's
exception — like any other uncaught exception here — propagates to the
caller. -/
def parse_attr_details_response (st : ScraperInfo) (data : JsonV) :
    Except PyErr AttrDetails := do
  let r0 ← attrResult0 data
  let cont ← jGetE r0 "container"
  let general ← jGetE cont "jsonLd"
  let coords := extract_lat_lng st data
  let reads ← jsonLdReads general
  let desc ← parse_business_description data
  let dur ← parse_activity_duration data
  let website ← parse_business_website data
  let tags ← parse_business_tags data
  let hours ← parse_business_hours data
  let rating ← match reads.2.2.2.1 with
    | .null => Except.ok JsonV.null
    | v => do
      let q ← pyFloat v
      Except.ok (JsonV.num q)
  let review ← match reads.2.2.2.2.1 with
    | .null => Except.ok JsonV.null
    | v => do
      let n ← pyInt v
      Except.ok (JsonV.num (n : ℚ))
  .ok
    { type_ := reads.1
      address := reads.2.1
      city := st.city
      state := st.state
      country := st.country
      zip_code := reads.2.2.1
      rating := rating
      review_count := review
      image_url := reads.2.2.2.2.2
      latitude := coords.1
      longitude := coords.2
      description := desc
      activity_duration := dur
      website := website
      tags := tags
      hours := hours }

/-- Loop of `format_attr_details`: each payload is handled inside its
own `try ... except: continue`, so an id-list index error or any parse
exception drops exactly that payload's record and the scan moves on. -/
def formatLoop (st : ScraperInfo) (attrIds : List AttrRef) :
    ℕ → List JsonV → List (AttrRef × AttrDetails)
  | _, [] => []
  | idx, item :: rest =>
    match attrIds[idx]? with
    | none => formatLoop st attrIds (idx + 1) rest
    | some ref =>
      match parse_attr_details_response st item with
      | .ok d => (ref, d) :: formatLoop st attrIds (idx + 1) rest
      | .error _ => formatLoop st attrIds (idx + 1) rest

/-- `format_attr_details` (scraper.py): a record pairs the positional
attraction reference (`tripadvisor_id`, `name`) with the parsed
details. -/
def format_attr_details (st : ScraperInfo) (attrIds : List AttrRef)
    (data : List JsonV) : List (AttrRef × AttrDetails) :=
  formatLoop st attrIds 0 data

/-- The scraper state that `get_attr_ids` touches: the resolved city
id, the page count and the discovered id list (`None` until the first
successful discovery). -/
structure ScraperState where
  city_id : JsonV
  max_pages : ℕ
  attr_ids : Option (List AttrRef)

/-- `get_attr_ids` (scraper.py): when `attr_ids` is unset, fetch one
response per page (`responses` maps the page number to the payload the
network returns), parse each into an ordered reference list and
concatenate with `reduce` (which raises on an empty argument list,
i.e. when `max_pages = 0`); when `attr_ids` is already set, do
nothing. -/
def get_attr_ids (s : ScraperState) (responses : ℕ → JsonV) :
    Except PyErr ScraperState :=
  match s.attr_ids with
  | some _ => .ok s
  | none => do
    let parsed ← (List.range s.max_pages).mapM
      (fun p => parse_attr_ids_response (responses p))
    match parsed with
    | [] => .error .typeError
    | x :: xs => .ok { s with attr_ids := some (xs.foldl (· ++ ·) x) }

/-! ## Response shapes and spec-side reference definitions -/

/-- The provider's autocomplete response shape around a candidate list:
`[ \x7b "data": \x7b "Typeahead_autocomplete": \x7b "results": [...] \x7d \x7d \x7d ]`. -/
def mkAutocompleteResponse (cands : List JsonV) : JsonV :=
  .arr [.obj [("data",
    .obj [("Typeahead_autocomplete", .obj [("results", .arr cands)])])]]

/-- Modelled from the spec (§4.2 CityResolver), the reference
resolution rule: filter the candidates to the location result kind;
skip a candidate whose coordinate fields are missing; return the
`locationId` of the first candidate whose distance to the target lies
below the threshold; with no qualifying candidate, resolve to the
unresolved value (`none`). -/
def resolveCitySpec (dist : ℚ → ℚ → ℚ → ℚ → ℚ) (lat lng : ℚ) :
    List JsonV → Option JsonV
  | [] => none
  | c :: rest =>
    if isLocationItem c then
      match candCoordsE c with
      | .ok (.num a, .num b) =>
        if dist lat lng a b < MIN_DISTANCE then
          match jGetE c "locationId" with
          | .ok v => some v
          | .error _ => resolveCitySpec dist lat lng rest
        else resolveCitySpec dist lat lng rest
      | _ => resolveCitySpec dist lat lng rest
    else resolveCitySpec dist lat lng rest

/-- The page-0 listing response shape around a sections list. -/
def mkListingResponse (sections : List JsonV) : JsonV :=
  .arr [.obj [("data",
    .obj [("Result", .arr [.obj [("sections", .arr sections)]])])]]

/-- Is a listing section the pagination-summary section? -/
def isPaginationSection (c : JsonV) : Bool :=
  match jGetE c "__typename" with
  | .ok v => jStrEq v "WebPresentation_PaginationLinksList"
  | .error _ => false

/-- Pure `section.get(key, default)` for sections already known to be
dicts. -/
def sectionGetD (c : JsonV) (k : String) (d : JsonV) : JsonV :=
  match c with
  | .obj fs => (fs.lookup k).getD d
  | _ => d

/-! ## Shared lemmas -/

theorem except_bind_error (e : ε) (f : α → Except ε β) :
    (Except.error e >>= f) = Except.error e := rfl

theorem except_bind_ok (a : α) (f : α → Except ε β) :
    (Except.ok a >>= f) = f a := rfl

/-- A bound computation is not ok when the continuation is not ok on
every value the first step can produce. -/
theorem isOk_bind_false (x : Except ε α) (f : α → Except ε β)
    (h : ∀ a, x = .ok a → (f a).isOk = false) : (x >>= f).isOk = false := by
  cases x with
  | error e => rfl
  | ok a => exact h a rfl

/-! ## C9: batch_data -/

theorem batchChunks_nil (n fuel : ℕ) : batchChunks n fuel ([] : List α) = [] := by
  cases fuel <;> rfl

theorem batchChunks_join (n : ℕ) (hn : 1 ≤ n) :
    ∀ (fuel : ℕ) (xs : List α), xs.length ≤ fuel →
      (batchChunks n fuel xs).flatten = xs := by
  intro fuel
  induction fuel with
  | zero =>
    intro xs h
    have hx : xs = [] := List.length_eq_zero.mp (Nat.le_zero.mp h)
    subst hx
    rfl
  | succ f ih =>
    intro xs h
    cases xs with
    | nil => rfl
    | cons x rest =>
      show (x :: rest).take n ++ (batchChunks n f ((x :: rest).drop n)).flatten =
        x :: rest
      rw [ih ((x :: rest).drop n)
          (by simp only [List.length_drop, List.length_cons] at h ⊢; omega),
        List.take_append_drop]

theorem batchChunks_ne_nil (n : ℕ) :
    ∀ (fuel : ℕ) (xs : List α), 1 ≤ fuel → xs ≠ [] →
      batchChunks n fuel xs ≠ [] := by
  intro fuel xs h1 h2
  cases fuel with
  | zero => omega
  | succ f =>
    cases xs with
    | nil => exact absurd rfl h2
    | cons x rest => simp [batchChunks]

theorem batchChunks_mem_ne_nil (n : ℕ) (hn : 1 ≤ n) :
    ∀ (fuel : ℕ) (xs : List α), ∀ b ∈ batchChunks n fuel xs, b ≠ [] := by
  intro fuel
  induction fuel with
  | zero => intro xs b hb; simp [batchChunks] at hb
  | succ f ih =>
    intro xs b hb
    cases xs with
    | nil => simp [batchChunks] at hb
    | cons x rest =>
      rw [show batchChunks n (f + 1) (x :: rest) =
        (x :: rest).take n :: batchChunks n f ((x :: rest).drop n) from rfl] at hb
      rcases List.mem_cons.mp hb with hb1 | hb2
      · obtain ⟨m, rfl⟩ : ∃ m, n = m + 1 := ⟨n - 1, by omega⟩
        subst hb1
        simp
      · exact ih _ b hb2

theorem batchChunks_dropLast (n : ℕ) (hn : 1 ≤ n) :
    ∀ (fuel : ℕ) (xs : List α), xs.length ≤ fuel →
      ∀ b ∈ (batchChunks n fuel xs).dropLast, b.length = n := by
  intro fuel
  induction fuel with
  | zero =>
    intro xs h b hb
    have hx : xs = [] := List.length_eq_zero.mp (Nat.le_zero.mp h)
    subst hx
    simp [batchChunks] at hb
  | succ f ih =>
    intro xs h b hb
    cases xs with
    | nil => simp [batchChunks] at hb
    | cons x rest =>
      rw [show batchChunks n (f + 1) (x :: rest) =
        (x :: rest).take n :: batchChunks n f ((x :: rest).drop n) from rfl] at hb
      by_cases hd : (x :: rest).drop n = []
      · rw [hd, batchChunks_nil] at hb
        simp at hb
      · have hlt : n < (x :: rest).length := by
          by_contra hcon
          exact hd (List.drop_eq_nil_of_le (by omega))
        have hf1 : 1 ≤ f := by
          have hdl : 1 ≤ ((x :: rest).drop n).length :=
            List.length_pos.mpr hd
          simp only [List.length_drop, List.length_cons] at hdl h
          omega
        rw [List.dropLast_cons_of_ne_nil
          (batchChunks_ne_nil n f _ hf1 hd)] at hb
        rcases List.mem_cons.mp hb with hb1 | hb2
        · subst hb1
          simp only [List.length_take, List.length_cons]
          simp only [List.length_cons] at hlt
          omega
        · exact ih _
            (by simp only [List.length_drop, List.length_cons] at h ⊢; omega) b hb2

/-- C9: for every list and every batch size n ≥ 1, the batches of
`batch_data` concatenate back to the input in order, every batch except
possibly the last has length exactly n, no batch is empty, and the
empty list produces no batches. -/
theorem batch_data_spec (xs : List α) (n : ℕ) (h : 1 ≤ n) :
    (batch_data xs n).flatten = xs ∧
    (∀ b ∈ (batch_data xs n).dropLast, b.length = n) ∧
    (∀ b ∈ batch_data xs n, b ≠ []) ∧
    batch_data ([] : List α) n = [] :=
  ⟨batchChunks_join n h xs.length xs le_rfl,
   batchChunks_dropLast n h xs.length xs le_rfl,
   fun b hb => batchChunks_mem_ne_nil n h xs.length xs b hb,
   rfl⟩

/-- C9 witness: the specification evaluated at `[1, 2, 3]` with batch
size 2. -/
theorem batch_data_spec_witness :
    1 ≤ 2 ∧
    ((batch_data [1, 2, 3] 2).flatten = [1, 2, 3] ∧
     (∀ b ∈ (batch_data [1, 2, 3] 2).dropLast, b.length = 2) ∧
     (∀ b ∈ batch_data [1, 2, 3] 2, b ≠ []) ∧
     batch_data ([] : List ℕ) 2 = []) :=
  ⟨by decide, batch_data_spec [1, 2, 3] 2 (by decide)⟩

/-! ## C4: the retry combinator -/

theorem retryGo_all_fail (f : ℕ → Except E A) (m : E → Bool) :
    ∀ (left i : ℕ),
      (∀ k, i ≤ k → k ≤ i + left → ∃ e, f k = .error e ∧ m e = true) →
      ∃ e, f (i + left) = .error e ∧
        retryGo f m i left = (.error e, left + 1, left + 1) := by
  intro left
  induction left with
  | zero =>
    intro i h
    obtain ⟨e, hfe, hme⟩ := h i le_rfl (by omega)
    exact ⟨e, by simpa using hfe, by simp [retryGo, hfe, hme]⟩
  | succ l ih =>
    intro i h
    obtain ⟨e0, hf0, hm0⟩ := h i le_rfl (by omega)
    obtain ⟨e, hfe, hgo⟩ := ih (i + 1) (fun k hk1 hk2 => h k (by omega) (by omega))
    refine ⟨e, ?_, ?_⟩
    · rw [show i + (l + 1) = i + 1 + l by omega]
      exact hfe
    · simp [retryGo, hf0, hm0, hgo]

theorem retryGo_eventually_ok (f : ℕ → Except E A) (m : E → Bool) (a : A) :
    ∀ (left i : ℕ),
      (∀ k, i ≤ k → k < i + left → ∃ e, f k = .error e ∧ m e = true) →
      f (i + left) = .ok a →
      retryGo f m i left = (.ok a, left + 1, left) := by
  intro left
  induction left with
  | zero =>
    intro i h hok
    simp only [Nat.add_zero] at hok
    simp [retryGo, hok]
  | succ l ih =>
    intro i h hok
    obtain ⟨e0, hf0, hm0⟩ := h i le_rfl (by omega)
    have hrec := ih (i + 1) (fun k hk1 hk2 => h k (by omega) (by omega))
      (by rw [show i + 1 + l = i + (l + 1) by omega]; exact hok)
    simp [retryGo, hf0, hm0, hrec]

theorem retryGo_nonmatch (f : ℕ → Except E A) (m : E → Bool) :
    ∀ (left i j : ℕ) (e : E), i ≤ j → j ≤ i + left →
      (∀ k, i ≤ k → k < j → ∃ e2, f k = .error e2 ∧ m e2 = true) →
      f j = .error e → m e = false →
      retryGo f m i left = (.error e, j - i + 1, j - i) := by
  intro left
  induction left with
  | zero =>
    intro i j e h1 h2 h3 hfj hme
    have hij : j = i := by omega
    subst hij
    simp [retryGo, hfj, hme]
  | succ l ih =>
    intro i j e h1 h2 h3 hfj hme
    by_cases hij : j = i
    · subst hij
      simp [retryGo, hfj, hme]
    · obtain ⟨e0, hf0, hm0⟩ := h3 i le_rfl (by omega)
      have hrec := ih (i + 1) j e (by omega) (by omega)
        (fun k hk1 hk2 => h3 k (by omega) hk2) hfj hme
      simp only [retryGo, hf0, hm0, if_true, hrec]
      have ha : j - (i + 1) + 1 + 1 = j - i + 1 := by omega
      have hb : j - (i + 1) + 1 = j - i := by omega
      rw [ha, hb]

/-- C4: contract of the generic retry combinator
`BaseTimeoutDecoratorClass` with parameters (retries, wait, error
kinds), where the spec's maxAttempts is the total attempt budget
retries + 1: (i) an operation raising a matching error on every
invocation makes the wrapper re-raise the last error after exactly
maxAttempts = retries + 1 invocations; (ii) an operation failing on the
first maxAttempts − 1 = retries invocations and then succeeding makes
the wrapper return the success value after exactly retries sleeps;
(iii) a non-matching error at any invocation propagates immediately,
with no further invocation and no sleep for it. -/
theorem retry_policy_contract (f : ℕ → Except E A) (isMatch : E → Bool)
    (retries : ℕ) :
    ((∀ k, k ≤ retries → ∃ e, f k = .error e ∧ isMatch e = true) →
      ∃ e, f retries = .error e ∧
        (retryCall f isMatch retries).1 = .error e ∧
        (retryCall f isMatch retries).2.1 = retries + 1) ∧
    (∀ a, (∀ k, k < retries → ∃ e, f k = .error e ∧ isMatch e = true) →
      f retries = .ok a →
      retryCall f isMatch retries = (.ok a, retries + 1, retries)) ∧
    (∀ j e, j ≤ retries →
      (∀ k, k < j → ∃ e2, f k = .error e2 ∧ isMatch e2 = true) →
      f j = .error e → isMatch e = false →
      retryCall f isMatch retries = (.error e, j + 1, j)) := by
  refine ⟨?_, ?_, ?_⟩
  · intro h
    obtain ⟨e, hfe, hgo⟩ := retryGo_all_fail f isMatch retries 0
      (fun k hk1 hk2 => h k (by omega))
    exact ⟨e, by simpa using hfe, by simp [retryCall, hgo]⟩
  · intro a h hok
    have := retryGo_eventually_ok f isMatch a retries 0
      (fun k hk1 hk2 => h k (by omega)) (by simpa using hok)
    simpa [retryCall] using this
  · intro j e hj h hfj hme
    have := retryGo_nonmatch f isMatch retries 0 j e (by omega) (by omega)
      (fun k hk1 hk2 => h k hk2) hfj hme
    simpa [retryCall] using this

/-- A concrete operation that fails every invocation with error 7. -/
def wfail : ℕ → Except ℕ ℕ := fun _ => .error 7

/-- A concrete operation that fails twice with error 7 and then
succeeds with 42. -/
def wflaky : ℕ → Except ℕ ℕ := fun i => if i < 2 then .error 7 else .ok 42

/-- A concrete operation that fails once with error 7 and then with the
non-matching error 9. -/
def wother : ℕ → Except ℕ ℕ := fun i => if i = 0 then .error 7 else .error 9

/-- The concrete matcher: only error 7 is transient. -/
def wmatch : ℕ → Bool := fun e => e == 7

/-- C4 witness: the contract evaluated at retries = 2 on the three
concrete operations. -/
theorem retry_policy_contract_witness :
    (∃ e, wfail 2 = .error e ∧ (retryCall wfail wmatch 2).1 = .error e ∧
      (retryCall wfail wmatch 2).2.1 = 3) ∧
    retryCall wflaky wmatch 2 = (.ok 42, 3, 2) ∧
    retryCall wother wmatch 2 = (.error 9, 2, 1) := by
  refine ⟨(retry_policy_contract wfail wmatch 2).1 ?_,
    (retry_policy_contract wflaky wmatch 2).2.1 42 ?_ rfl,
    (retry_policy_contract wother wmatch 2).2.2 1 9 (by omega) ?_ rfl rfl⟩
  · intro k hk
    exact ⟨7, rfl, rfl⟩
  · intro k hk
    refine ⟨7, ?_, rfl⟩
    simp [wflaky, hk]
  · intro k hk
    have hk0 : k = 0 := by omega
    subst hk0
    exact ⟨7, rfl, rfl⟩

/-! ## C5: the retry configurations in effect -/

/-- C5 counterexample: `upload_file` is a storage-access operation and
its retry parameter is 100, not 20 (nor is its total attempt budget 20
or the 21 of the other two storage operations). -/
theorem storage_upload_retry_counterexample :
    gcpUploadFileRetry.retries = 100 ∧ gcpUploadFileRetry.retries ≠ 20 ∧
    gcpUploadFileRetry.retries + 1 ≠ 20 ∧
    gcpUploadFileRetry.retries ≠ gcpCheckFileRetry.retries := by
  decide

/-- C5 amended: four decorator configurations are in effect — storage
existence-check and load with (retries 20, wait 0.2 s), storage upload
with (retries 100, wait 0.2 s), embedding calls with (retries 10, wait
1 s) — plus the tenacity configuration (5 total attempts, wait 2 s) on
provider network calls; under persistent matching failure the decorated
operations are invoked retries + 1 times (21, 101 and 11
respectively). -/
theorem retry_configurations :
    gcpCheckFileRetry.retries = 20 ∧ gcpCheckFileRetry.wait = 1 / 5 ∧
    gcpLoadFileRetry.retries = 20 ∧ gcpLoadFileRetry.wait = 1 / 5 ∧
    gcpUploadFileRetry.retries = 100 ∧ gcpUploadFileRetry.wait = 1 / 5 ∧
    openaiEmbeddingRetry.retries = 10 ∧ openaiEmbeddingRetry.wait = 1 ∧
    scraperRequestAttempts = 5 ∧ scraperRequestWait = 2 ∧
    (∀ (f : ℕ → Except ℕ ℕ) (m : ℕ → Bool),
      (∀ k, ∃ e, f k = .error e ∧ m e = true) →
      (retryCall f m gcpCheckFileRetry.retries).2.1 = 21 ∧
      (retryCall f m gcpUploadFileRetry.retries).2.1 = 101 ∧
      (retryCall f m openaiEmbeddingRetry.retries).2.1 = 11) := by
  refine ⟨rfl, rfl, rfl, rfl, rfl, rfl, rfl, rfl, rfl, rfl, ?_⟩
  intro f m h
  refine ⟨?_, ?_, ?_⟩
  · obtain ⟨e, hfe, hgo⟩ := retryGo_all_fail f m 20 0 (fun k _ _ => h k)
    simp [retryCall, gcpCheckFileRetry, hgo]
  · obtain ⟨e, hfe, hgo⟩ := retryGo_all_fail f m 100 0 (fun k _ _ => h k)
    simp [retryCall, gcpUploadFileRetry, hgo]
  · obtain ⟨e, hfe, hgo⟩ := retryGo_all_fail f m 10 0 (fun k _ _ => h k)
    simp [retryCall, openaiEmbeddingRetry, hgo]

/-- C5 witness: the attempt counts evaluated on the always-failing
operation. -/
theorem retry_configurations_witness :
    (retryCall wfail wmatch gcpCheckFileRetry.retries).2.1 = 21 ∧
    (retryCall wfail wmatch gcpUploadFileRetry.retries).2.1 = 101 ∧
    (retryCall wfail wmatch openaiEmbeddingRetry.retries).2.1 = 11 :=
  retry_configurations.2.2.2.2.2.2.2.2.2.2 wfail wmatch (fun _ => ⟨7, rfl, rfl⟩)

/-! ## C2: the checkpoint rewrite path -/

theorem write_read_paths_differ (base cwd : List String) (h : cwd ≠ base) :
    cityCacheWritePath cwd ≠ cityCacheLoadPath base := by
  intro he
  apply h
  simp only [cityCacheWritePath, cityCacheLoadPath, CACHE_FILEPATH,
    joinPath] at he
  have hlen : cwd.length = base.length := by
    have h2 := congrArg List.length he
    simp only [List.length_append] at h2
    omega
  exact (List.append_inj he hlen).1

/-- C2: `update_cache` rewrites the full task list, but to the relative
path `CACHE_FILENAME` resolved against the working directory — not to
the `CACHE_FILEPATH` document `__init__` loaded; the two coincide only
when the working directory is `BASE_FILEPATH` itself. -/
theorem update_cache_wrong_path :
    cityCacheWritePath ["home", "airflow"] ≠
      cityCacheLoadPath ["opt", "repo", "src"] ∧
    cityCacheWritePath ["opt", "repo", "src"] =
      cityCacheLoadPath ["opt", "repo", "src"] :=
  ⟨write_read_paths_differ ["opt", "repo", "src"] ["home", "airflow"]
    (by decide), rfl⟩

/-! ## C1: one iteration pass of the work cache -/

theorem countUnprocessed_cons (t : CityTask) (rest : List CityTask) :
    countUnprocessed (t :: rest) =
      (if t.processed then 0 else 1) + countUnprocessed rest := by
  simp only [countUnprocessed, List.filter_cons]
  cases h : t.processed with
  | false => simp; omega
  | true => simp

theorem cityIterGo_count (limit : ℕ) :
    ∀ (cache : List CityTask) (n : ℕ), n < limit →
      limit - n ≤ countUnprocessed cache →
      (cityIterGo limit cache n).2.length = limit - n ∧
      countUnprocessed (cityIterGo limit cache n).1 =
        countUnprocessed cache - (limit - n) := by
  intro cache
  induction cache with
  | nil =>
    intro n h1 h2
    exfalso
    simp [countUnprocessed] at h2
    omega
  | cons t rest ih =>
    intro n h1 h2
    rw [countUnprocessed_cons] at h2
    cases hp : t.processed with
    | true =>
      simp only [hp, if_true] at h2
      have hrec := ih n h1 (by omega)
      have hgo : cityIterGo limit (t :: rest) n =
          (t :: (cityIterGo limit rest n).1, (cityIterGo limit rest n).2) := by
        simp [cityIterGo, hp]
      rw [hgo]
      refine ⟨hrec.1, ?_⟩
      rw [countUnprocessed_cons, countUnprocessed_cons]
      simp only [hp, if_true]
      have := hrec.2
      omega
    | false =>
      simp only [hp, Bool.false_eq_true, if_false] at h2
      by_cases hl : n + 1 = limit
      · have hgo : cityIterGo limit (t :: rest) n =
            ({ t with processed := true, success := true } :: rest,
             [{ t with processed := true, success := false }]) := by
          simp [cityIterGo, hp, hl]
        rw [hgo]
        constructor
        · simp
          omega
        · rw [countUnprocessed_cons, countUnprocessed_cons]
          simp only [hp, Bool.false_eq_true, if_false]
          simp
          omega
      · have h1' : n + 1 < limit := by omega
        have hrec := ih (n + 1) h1' (by omega)
        have hgo : cityIterGo limit (t :: rest) n =
            ({ t with processed := true, success := true } ::
               (cityIterGo limit rest (n + 1)).1,
             { t with processed := true, success := false } ::
               (cityIterGo limit rest (n + 1)).2) := by
          simp [cityIterGo, hp, hl]
        rw [hgo]
        constructor
        · simp only [List.length_cons]
          have := hrec.1
          omega
        · rw [countUnprocessed_cons, countUnprocessed_cons]
          simp only [hp, Bool.false_eq_true, if_false]
          simp
          have := hrec.2
          omega

/-- C1 counterexample: a cache with one unprocessed task and run limit
B = 0 < 1 = N yields one task — not zero — and leaves zero tasks
unprocessed. -/
def c1CexCache : List CityTask :=
  [{ city := "aarhus", state := none, country := "denmark", lat := 0,
     lng := 0, nspace := "aarhus-ns", processed := false, success := false }]

/-- C1 counterexample theorem. -/
theorem run_limit_zero_counterexample :
    countUnprocessed c1CexCache = 1 ∧
    (cityCacheIter c1CexCache 0).2.length = 1 ∧
    (cityCacheIter c1CexCache 0).2.length ≠ 0 ∧
    countUnprocessed (cityCacheIter c1CexCache 0).1 = 0 := by
  decide

/-- C1 amended: for every cache with N unprocessed tasks and per-run
limit B with 1 ≤ B < N, one iteration pass yields exactly B tasks and
halts, and exactly N − B tasks still have processed = false when the
pass ends (with B = 0 the counter equality `num_processed ==
cities_per_job` is never reached and the pass runs through every
task). -/
theorem work_cache_iteration_count (cache : List CityTask) (B : ℕ)
    (h1 : 1 ≤ B) (h2 : B < countUnprocessed cache) :
    (cityCacheIter cache B).2.length = B ∧
    countUnprocessed (cityCacheIter cache B).1 =
      countUnprocessed cache - B := by
  have h := cityIterGo_count B cache 0 (by omega) (by omega)
  simpa [cityCacheIter] using h

/-- Two unprocessed tasks for the C1 witness. -/
def c1WitnessCache : List CityTask :=
  [{ city := "aarhus", state := none, country := "denmark", lat := 0,
     lng := 0, nspace := "aarhus-ns", processed := false, success := false },
   { city := "boston", state := some "ma", country := "usa", lat := 0,
     lng := 0, nspace := "boston-ns", processed := false, success := false }]

/-- C1 witness: the amended claim evaluated at N = 2, B = 1. -/
theorem work_cache_iteration_count_witness :
    1 ≤ 1 ∧ 1 < countUnprocessed c1WitnessCache ∧
    ((cityCacheIter c1WitnessCache 1).2.length = 1 ∧
     countUnprocessed (cityCacheIter c1WitnessCache 1).1 =
       countUnprocessed c1WitnessCache - 1) :=
  ⟨by decide, by decide,
   work_cache_iteration_count c1WitnessCache 1 (by decide) (by decide)⟩

/-! ## C10: the id list is fetched at most once -/

/-- C10: `get_attr_ids` fetches and assigns only when `attr_ids` is
unset; whenever a call returns normally, a repeated call — with any
responses — returns the same state unchanged, so the id list is never
refetched. -/
theorem attr_ids_fetched_once (s s' : ScraperState) (r r' : ℕ → JsonV) :
    (s.attr_ids.isSome = true → get_attr_ids s r = .ok s) ∧
    (get_attr_ids s r = .ok s' → get_attr_ids s' r' = .ok s') := by
  constructor
  · intro h
    cases hs : s.attr_ids with
    | some l => simp [get_attr_ids, hs]
    | none => rw [hs] at h; simp at h
  · intro h
    cases hs : s.attr_ids with
    | some l =>
      rw [show get_attr_ids s r = .ok s from by simp [get_attr_ids, hs]] at h
      injection h with h2
      subst h2
      simp [get_attr_ids, hs]
    | none =>
      unfold get_attr_ids at h
      rw [hs] at h
      cases hm : (List.range s.max_pages).mapM
          (fun p => parse_attr_ids_response (r p)) with
      | error e =>
        rw [hm, except_bind_error] at h
        exact Except.noConfusion h
      | ok parsed =>
        rw [hm, except_bind_ok] at h
        cases parsed with
        | nil => exact Except.noConfusion h
        | cons x xs =>
          injection h with h2
          subst h2
          simp [get_attr_ids]

/-- A scraper state that already holds an (empty) id list. -/
def c10State : ScraperState := ⟨.null, 0, some []⟩

/-- C10 witness: a second call on a state holding an id list returns it
unchanged. -/
theorem attr_ids_fetched_once_witness :
    c10State.attr_ids.isSome = true ∧
    get_attr_ids c10State (fun _ => .null) = .ok c10State ∧
    get_attr_ids c10State (fun _ => .null) = .ok c10State :=
  ⟨rfl,
   (attr_ids_fetched_once c10State c10State (fun _ => .null)
     (fun _ => .null)).1 rfl,
   (attr_ids_fetched_once c10State c10State (fun _ => .null)
     (fun _ => .null)).2
     ((attr_ids_fetched_once c10State c10State (fun _ => .null)
       (fun _ => .null)).1 rfl)⟩

/-! ## C7: duration extraction -/

/-- C7: the duration extractor collects all embedded integers of the
text, averages them, and produces the average — converted to minutes
(times 60) when the lowered text contains "hour", kept as minutes when
it contains "minute"/"min" — rounded to the nearest 5-minute increment
(Python round, half to even); it raises when no recognized unit word is
present (and on unit-bearing text with no digits, where the numpy mean
is NaN).  In particular "about 2 hours" yields 120 and "15-20 minutes"
yields 20. -/
theorem extract_activity_duration_spec :
    (∀ text : String,
      extract_activity_duration text =
        (let ds := findallDigits text
         let avg : ℚ := ((ds.map (fun n => (n : ℚ))).sum) / (ds.length : ℚ)
         if hasSubstr (strLower text) "hour" then
           if ds.isEmpty then .error .valueError
           else .ok (5 * pyRound (60 * avg / 5))
         else if hasSubstr (strLower text) "minute" ||
             hasSubstr (strLower text) "min" then
           if ds.isEmpty then .error .valueError
           else .ok (5 * pyRound (avg / 5))
         else .error .err)) ∧
    extract_activity_duration "about 2 hours" = .ok 120 ∧
    extract_activity_duration "15-20 minutes" = .ok 20 ∧
    extract_activity_duration "wander around" = .error .err := by
  refine ⟨fun text => rfl, ?_, ?_, rfl⟩
  · have h1 : findallDigits "about 2 hours" = [2] := rfl
    have h2 : hasSubstr (strLower "about 2 hours") "hour" = true := rfl
    simp only [extract_activity_duration, h1, h2, if_true,
      List.isEmpty_cons, Bool.false_eq_true, if_false, Except.ok.injEq]
    norm_num [meanQ, pyRound]
  · have h1 : findallDigits "15-20 minutes" = [15, 20] := rfl
    have h2 : hasSubstr (strLower "15-20 minutes") "hour" = false := rfl
    have h3 : hasSubstr (strLower "15-20 minutes") "minute" = true := rfl
    simp only [extract_activity_duration, h1, h2, h3, Bool.false_eq_true,
      if_false, Bool.true_or, if_true, List.isEmpty_cons, Except.ok.injEq]
    norm_num [meanQ, pyRound]

/-! ## C3: the page-0 total-results scan -/

theorem maxAttrLoop_spec :
    ∀ (l : List JsonV), (∀ c ∈ l, (jGetE c "__typename").isOk = true) →
      maxAttrLoop l = .ok ((l.find? isPaginationSection).map
        (fun c => sectionGetD c "totalResults" (.num 30))) := by
  intro l
  induction l with
  | nil => intro h; rfl
  | cons c rest ih =>
    intro h
    have hc := h c (List.mem_cons_self c rest)
    cases hg : jGetE c "__typename" with
    | error e => rw [hg] at hc; exact Bool.noConfusion hc
    | ok tn =>
      have hstep : maxAttrLoop (c :: rest) =
          (jGetE c "__typename" >>= fun tn =>
            if jStrEq tn "WebPresentation_PaginationLinksList" then
              dictGetD c "totalResults" (.num 30) >>= fun v => .ok (some v)
            else maxAttrLoop rest) := rfl
      rw [hstep, hg, except_bind_ok]
      have hpag : isPaginationSection c =
          jStrEq tn "WebPresentation_PaginationLinksList" := by
        simp [isPaginationSection, hg]
      cases hb : jStrEq tn "WebPresentation_PaginationLinksList" with
      | false =>
        rw [if_neg (by simp [hb])]
        rw [List.find?_cons_of_neg _ (by simp [hpag, hb])]
        exact ih (fun d hd => h d (List.mem_cons_of_mem c hd))
      | true =>
        rw [if_pos (by simp [hb])]
        rw [List.find?_cons_of_pos _ (by rw [hpag]; exact hb)]
        cases c with
        | obj fs => rfl
        | null => exact absurd hg (by simp [jGetE])
        | bool b => exact absurd hg (by simp [jGetE])
        | num q => exact absurd hg (by simp [jGetE])
        | str s => exact absurd hg (by simp [jGetE])
        | arr xs => exact absurd hg (by simp [jGetE])

/-- C3 amended: the scan walks the sections in reverse order; the first
pagination-summary section found (i.e. the last in document order)
yields its total-results count, with 30 as the default when only the
field is absent; when the section itself is absent the function falls
off the loop and returns None — not 30. -/
theorem get_max_attr_spec (sections : List JsonV)
    (h : ∀ c ∈ sections, (jGetE c "__typename").isOk = true) :
    get_max_attr (mkListingResponse sections) =
      .ok ((sections.reverse.find? isPaginationSection).map
        (fun c => sectionGetD c "totalResults" (.num 30))) := by
  have hred : get_max_attr (mkListingResponse sections) =
      maxAttrLoop sections.reverse := rfl
  rw [hred, maxAttrLoop_spec sections.reverse
    (fun c hc => h c (List.mem_reverse.mp hc))]

/-- C3 counterexample: on a listing response with no pagination-summary
section the scan returns None, not the default 30. -/
theorem get_max_attr_missing_section_counterexample :
    get_max_attr (mkListingResponse []) = .ok none ∧
    get_max_attr (mkListingResponse []) ≠ .ok (some (.num 30)) := by
  refine ⟨rfl, ?_⟩
  intro h
  rw [show get_max_attr (mkListingResponse []) = .ok none from rfl] at h
  injection h with h2
  exact Option.noConfusion h2

/-- Listing sections for the C3 witness: a card section, a pagination
section carrying totalResults = 97, and a trailing section. -/
def c3WitnessSections : List JsonV :=
  [.obj [("__typename", .str "WebPresentation_SingleFlexCardSection")],
   .obj [("__typename", .str "WebPresentation_PaginationLinksList"),
         ("totalResults", .num 97)],
   .obj [("__typename", .str "WebPresentation_OtherSection")]]

/-- C3 witness: the amended scan evaluated on concrete sections. -/
theorem get_max_attr_spec_witness :
    (∀ c ∈ c3WitnessSections, (jGetE c "__typename").isOk = true) ∧
    get_max_attr (mkListingResponse c3WitnessSections) =
      .ok ((c3WitnessSections.reverse.find? isPaginationSection).map
        (fun c => sectionGetD c "totalResults" (.num 30))) ∧
    get_max_attr (mkListingResponse c3WitnessSections) =
      .ok (some (.num 97)) :=
  ⟨by decide, get_max_attr_spec c3WitnessSections (by decide), rfl⟩

/-! ## C8: city resolution -/

theorem cityLoop_spec (dist : ℚ → ℚ → ℚ → ℚ → ℚ) (lat lng : ℚ) :
    ∀ (l : List JsonV),
      (∀ c ∈ l, (jGetE c "__typename").isOk = true) →
      (∀ c ∈ l, isLocationItem c = true →
        (candCoordsE c = .error .keyError ∨
         ∃ a b, candCoordsE c = .ok (.num a, .num b))) →
      (∀ c ∈ l, isLocationItem c = true →
        ∀ a b, candCoordsE c = .ok (.num a, .num b) →
        dist lat lng a b < MIN_DISTANCE →
        (jGetE c "locationId").isOk = true) →
      cityLoop dist lat lng l = .ok (resolveCitySpec dist lat lng l) := by
  intro l
  induction l with
  | nil => intro h1 h2 h3; rfl
  | cons c rest ih =>
    intro h1 h2 h3
    have hrest := ih (fun d hd => h1 d (List.mem_cons_of_mem c hd))
      (fun d hd => h2 d (List.mem_cons_of_mem c hd))
      (fun d hd => h3 d (List.mem_cons_of_mem c hd))
    have hc := h1 c (List.mem_cons_self c rest)
    cases hg : jGetE c "__typename" with
    | error e => rw [hg] at hc; exact Bool.noConfusion hc
    | ok tn =>
      have hstep : cityLoop dist lat lng (c :: rest) =
          (jGetE c "__typename" >>= fun tn =>
            if jStrEq tn "Typeahead_LocationItem" then
              match candCoordsE c with
              | .error .keyError => cityLoop dist lat lng rest
              | .error e => .error e
              | .ok (.num la, .num lo) =>
                if dist lat lng la lo < MIN_DISTANCE then
                  match jGetE c "locationId" with
                  | .ok v => .ok (some v)
                  | .error .keyError => cityLoop dist lat lng rest
                  | .error e => .error e
                else cityLoop dist lat lng rest
              | .ok _ => .error .err
            else cityLoop dist lat lng rest) := rfl
      rw [hstep, hg, except_bind_ok]
      have hloceq : isLocationItem c = jStrEq tn "Typeahead_LocationItem" := by
        simp [isLocationItem, hg]
      cases hb : jStrEq tn "Typeahead_LocationItem" with
      | false =>
        rw [if_neg (by simp [hb])]
        rw [show resolveCitySpec dist lat lng (c :: rest) =
          resolveCitySpec dist lat lng rest from by
            simp [resolveCitySpec, hloceq, hb]]
        exact hrest
      | true =>
        have hloc : isLocationItem c = true := by rw [hloceq]; exact hb
        rw [if_pos (by simp [hb])]
        rcases h2 c (List.mem_cons_self c rest) hloc with hk | ⟨a, b, hab⟩
        · simp only [hk]
          rw [show resolveCitySpec dist lat lng (c :: rest) =
            resolveCitySpec dist lat lng rest from by
              simp [resolveCitySpec, hloc, hk]]
          exact hrest
        · simp only [hab]
          by_cases hd : dist lat lng a b < MIN_DISTANCE
          · rw [if_pos hd]
            have hlid := h3 c (List.mem_cons_self c rest) hloc a b hab hd
            cases hgl : jGetE c "locationId" with
            | error e => rw [hgl] at hlid; exact Bool.noConfusion hlid
            | ok v =>
              simp only [hgl]
              rw [show resolveCitySpec dist lat lng (c :: rest) = some v from by
                simp [resolveCitySpec, hloc, hab, hd, hgl]]
          · rw [if_neg hd]
            rw [show resolveCitySpec dist lat lng (c :: rest) =
              resolveCitySpec dist lat lng rest from by
                simp [resolveCitySpec, hloc, hab, hd]]
            exact hrest

/-- C8: on a well-formed autocomplete response — every candidate
carries a type tag; a location candidate either lacks a coordinate
field (and is skipped) or carries numeric coordinates; a qualifying
candidate carries its location id — `get_city_id` raises no error and
returns exactly the spec-side resolution: the location id of the first
location-kind candidate whose distance to the target is below the fixed
50 km threshold, or the unresolved value `None` when no candidate
qualifies. -/
theorem get_city_id_resolution (dist : ℚ → ℚ → ℚ → ℚ → ℚ)
    (st : ScraperInfo) (cands : List JsonV)
    (h1 : ∀ c ∈ cands, (jGetE c "__typename").isOk = true)
    (h2 : ∀ c ∈ cands, isLocationItem c = true →
      (candCoordsE c = .error .keyError ∨
       ∃ a b, candCoordsE c = .ok (.num a, .num b)))
    (h3 : ∀ c ∈ cands, isLocationItem c = true →
      ∀ a b, candCoordsE c = .ok (.num a, .num b) →
      dist st.lat st.lng a b < MIN_DISTANCE →
      (jGetE c "locationId").isOk = true) :
    get_city_id dist st (mkAutocompleteResponse cands) =
      .ok (resolveCitySpec dist st.lat st.lng cands) := by
  have hred : get_city_id dist st (mkAutocompleteResponse cands) =
      cityLoop dist st.lat st.lng cands := rfl
  rw [hred, cityLoop_spec dist st.lat st.lng cands h1 h2 h3]

/-- A location candidate 10 km from the target (under the witness
distance oracle, which reads off the candidate's latitude). -/
def candA : JsonV :=
  .obj [("__typename", .str "Typeahead_LocationItem"),
        ("details", .obj [("latitude", .num 10), ("longitude", .num 0)]),
        ("locationId", .str "A_id")]

/-- A location candidate 200 km from the target. -/
def candB : JsonV :=
  .obj [("__typename", .str "Typeahead_LocationItem"),
        ("details", .obj [("latitude", .num 200), ("longitude", .num 0)]),
        ("locationId", .str "B_id")]

/-- C8 witness: with candidates at 200 km and 10 km and threshold
50 km, the resolver returns the 10 km candidate's id; with no
candidates it returns None without error. -/
theorem get_city_id_resolution_witness :
    get_city_id (fun _ _ a _ => a) ⟨"odense", "", "denmark", 0, 0⟩
      (mkAutocompleteResponse [candB, candA]) =
      .ok (resolveCitySpec (fun _ _ a _ => a) 0 0 [candB, candA]) ∧
    get_city_id (fun _ _ a _ => a) ⟨"odense", "", "denmark", 0, 0⟩
      (mkAutocompleteResponse [candB, candA]) = .ok (some (.str "A_id")) ∧
    get_city_id (fun _ _ a _ => a) ⟨"odense", "", "denmark", 0, 0⟩
      (mkAutocompleteResponse []) = .ok none := by
  refine ⟨get_city_id_resolution (fun _ _ a _ => a) _ [candB, candA]
    ?_ ?_ ?_, rfl, rfl⟩
  · intro c hc
    rcases List.mem_cons.mp hc with rfl | hc2
    · rfl
    rcases List.mem_cons.mp hc2 with rfl | hc3
    · rfl
    exact absurd hc3 (List.not_mem_nil c)
  · intro c hc _
    rcases List.mem_cons.mp hc with rfl | hc2
    · exact Or.inr ⟨200, 0, rfl⟩
    rcases List.mem_cons.mp hc2 with rfl | hc3
    · exact Or.inr ⟨10, 0, rfl⟩
    exact absurd hc3 (List.not_mem_nil c)
  · intro c hc _ a b _ _
    rcases List.mem_cons.mp hc with rfl | hc2
    · rfl
    rcases List.mem_cons.mp hc2 with rfl | hc3
    · rfl
    exact absurd hc3 (List.not_mem_nil c)

/-! ## C6: per-record drop semantics of the detail batch -/

theorem formatLoop_enumFrom (st : ScraperInfo) (ids : List AttrRef) :
    ∀ (data : List JsonV) (k : ℕ),
      formatLoop st ids k data = (List.enumFrom k data).filterMap
        (fun p =>
          match ids[p.1]?, parse_attr_details_response st p.2 with
          | some ref, .ok d => some (ref, d)
          | _, _ => none) := by
  intro data
  induction data with
  | nil => intro k; rfl
  | cons item rest ih =>
    intro k
    cases hid : ids[k]? with
    | none =>
      simp [formatLoop, hid, List.enumFrom, List.filterMap_cons, ih (k + 1)]
    | some ref =>
      cases hp : parse_attr_details_response st item with
      | ok d =>
        simp [formatLoop, hid, hp, List.enumFrom, List.filterMap_cons,
          ih (k + 1)]
      | error e =>
        simp [formatLoop, hid, hp, List.enumFrom, List.filterMap_cons,
          ih (k + 1)]

/-- C6 amended: the batch formatter treats each payload independently —
the output consists, in order, of the records of exactly those payloads
whose positional id lookup and full per-payload parse succeed, so a
payload whose description extraction fails is dropped and every other
record is unchanged; however, the description is not the only drop
cause: any uncaught failure of the per-payload parse (missing jsonLd
container, missing section-group paths, coercion errors, id-list
exhaustion) equally drops exactly that payload's record. -/
theorem format_attr_details_spec (st : ScraperInfo) (ids : List AttrRef)
    (data : List JsonV) :
    format_attr_details st ids data = (List.enumFrom 0 data).filterMap
      (fun p =>
        match ids[p.1]?, parse_attr_details_response st p.2 with
        | some ref, .ok d => some (ref, d)
        | _, _ => none) ∧
    (∀ item, (parse_business_description item).isOk = false →
      (parse_attr_details_response st item).isOk = false) := by
  constructor
  · exact formatLoop_enumFrom st ids data 0
  · intro item h
    show (parse_attr_details_response st item).isOk = false
    unfold parse_attr_details_response
    apply isOk_bind_false
    intro r0 _
    apply isOk_bind_false
    intro cont _
    apply isOk_bind_false
    intro general _
    apply isOk_bind_false
    intro reads _
    apply isOk_bind_false
    intro desc hdesc
    rw [hdesc] at h
    exact Bool.noConfusion h

/-- The about-section group of the C6 counterexample payload: its
description decodes (to "Nice"). -/
def c6DescGroup : JsonV :=
  .obj [("__typename", .str "WebPresentation_AttractionAboutSectionGroup"),
        ("about", .obj [("primary", .obj [("about", .str "MDAwME5pY2UwMDAw")])])]

/-- The C6 counterexample payload: a well-formed description but no
`container` key for the structured-metadata block. -/
def c6BadPayload : JsonV :=
  .arr [.obj [("data",
    .obj [("Result", .arr [.obj [("detailSectionGroups", .arr [c6DescGroup])]])])]]

/-- C6 counterexample: a payload whose description extraction succeeds
is nevertheless dropped from the batch, because its jsonLd container
path is absent — so the description is not the only structural mismatch
that drops a record. -/
theorem non_description_drop_counterexample :
    parse_business_description c6BadPayload = .ok "Nice" ∧
    format_attr_details ⟨"odense", "", "denmark", 0, 0⟩
      [⟨.str "i1", .str "n1"⟩] [c6BadPayload] = [] :=
  ⟨rfl, rfl⟩

end TripScraper
